import Mathlib

/-!
Verification of the feature-extraction engine of `recur_scan`
(`src/recur_scan/features.py`), shallowly embedded in Lean 4.

Conventions of the embedding:
* Python `str` dates are Lean `String`s; all character work is done on
  `String.data` (a `List Char`), mirroring Python's per-character view.
* Python `int` is `ℤ`, Python `float` amounts are `ℚ` (exact arithmetic);
  the one claim that genuinely hinges on binary64 behaviour
  (`get_ends_in_99`) additionally gets an explicit IEEE-754 rounding model.
* Code that can raise (`datetime.strptime`, `int(...)`) is embedded in
  `Option`: `none` models an uncaught exception escaping the function.
-/

set_option maxRecDepth 4000

namespace RecurScan

/- Batteries marks the arithmetic on `Rat` `@[irreducible]`, which blocks
kernel evaluation of concrete rational computations; restore the default
reducibility locally so that `decide` can evaluate the embedded code. -/
attribute [local semireducible] Rat.mul Rat.inv Rat.add Rat.sub

/-- A transaction record: merchant name, amount, and a `YYYY-MM-DD` date
string (mirrors `recur_scan.transactions.Transaction` as used by
`features.py`). -/
structure Transaction where
  name : String
  amount : ℚ
  date : String
deriving DecidableEq

/-! ## Date parsing (`datetime.strptime(date, "%Y-%m-%d")`) -/

/-- Split a character list at every `'-'`, keeping empty fields, like
Python's `date.split("-")`. -/
def splitDash : List Char → List (List Char)
  | [] => [[]]
  | c :: rest =>
    let r := splitDash rest
    if c = '-' then [] :: r
    else
      match r with
      | f :: rs => (c :: f) :: rs
      | [] => [[c]]

/-- Decimal value of a digit string. -/
def digitsValue (cs : List Char) : ℤ :=
  cs.foldl (fun acc c => acc * 10 + ((c.toNat : ℤ) - 48)) 0

/-- Python `int(...)` on a field: any nonempty all-digit string (used by
`_get_day`, which has no width limit and no calendar validation). -/
def digitsVal (cs : List Char) : Option ℤ :=
  if cs ≠ [] ∧ cs.all Char.isDigit then some (digitsValue cs) else none

/-- The `%Y` directive of CPython `_strptime`: exactly four digits
(`\d\d\d\d`), so one- to three-digit years do not parse. -/
def yearField (cs : List Char) : Option ℤ :=
  if cs.length = 4 ∧ cs.all Char.isDigit then some (digitsValue cs) else none

/-- The `%m` directive: `1[0-2]|0[1-9]|[1-9]` — one or two digits.  A
two-digit field with value outside `1..12` (or `00`) makes the overall
parse fail either at the directive or as unconverted trailing data; both
routes end in the same `ValueError`, enforced here together with the
range guard in `parseDate`. -/
def monthField (cs : List Char) : Option ℤ :=
  if (cs.length = 1 ∨ cs.length = 2) ∧ cs.all Char.isDigit then some (digitsValue cs) else none

/-- The `%d` directive: `3[0-1]|[1-2]\d|0[1-9]|[1-9]| [1-9]` — one or two
digits, or a space followed by a nonzero digit; out-of-range values fail
as for `%m`. -/
def dayField (cs : List Char) : Option ℤ :=
  match cs with
  | [' ', c] => if '1' ≤ c ∧ c ≤ '9' then some ((c.toNat : ℤ) - 48) else none
  | _ =>
    if (cs.length = 1 ∨ cs.length = 2) ∧ cs.all Char.isDigit then some (digitsValue cs) else none

/-- Gregorian leap-year rule used by `datetime`. -/
def isLeapYear (y : ℤ) : Bool :=
  y % 4 = 0 ∧ (y % 100 ≠ 0 ∨ y % 400 = 0)

/-- Number of days in month `m` of year `y` (for valid months `1..12`). -/
def daysInMonth (y m : ℤ) : ℤ :=
  if m = 2 then (if isLeapYear y then 29 else 28)
  else if m = 4 ∨ m = 6 ∨ m = 9 ∨ m = 11 then 30
  else 31

/-- `datetime.strptime(s, "%Y-%m-%d")`, returning the `(year, month, day)`
components on success and `none` on `ValueError`: the `%Y`, `%m`, `%d`
directive regexes separated by literal dashes with nothing left over
(modelled by the exact three-way dash split), then `datetime`'s own
validation — year at least `MINYEAR = 1` (e.g. `"0000-01-01"` matches the
regex but the constructor raises), month `1..12`, day valid for the
month. -/
def parseDate (s : String) : Option (ℤ × ℤ × ℤ) :=
  match splitDash s.data with
  | [ys, ms, ds] =>
    match yearField ys, monthField ms, dayField ds with
    | some y, some m, some d =>
      if 1 ≤ y ∧ 1 ≤ m ∧ m ≤ 12 ∧ 1 ≤ d ∧ d ≤ daysInMonth y m
      then some (y, m, d) else none
    | _, _, _ => none
  | _ => none

/-- Days from 1970-01-01 to the proleptic-Gregorian date `y-m-d`
(Hinnant's `days_from_civil`; all divisions act on nonnegative values for
the `1 ≤ y ≤ 9999` range produced by `parseDate`). -/
def daysFromCivil (y m d : ℤ) : ℤ :=
  let yAdj := if m ≤ 2 then y - 1 else y
  let era := yAdj / 400
  let yoe := yAdj - era * 400
  let mp := if 2 < m then m - 3 else m + 9
  let doy := (153 * mp + 2) / 5 + d - 1
  let doe := yoe * 365 + yoe / 4 - yoe / 100 + doy
  era * 146097 + doe - 719468

/-- `_get_days(date)`: days since the epoch of the transaction date;
`none` models the `ValueError` that `strptime` raises on a malformed
date (the source does not catch it here). -/
def _get_days (date : String) : Option ℤ :=
  (parseDate date).map fun ymd => daysFromCivil ymd.1 ymd.2.1 ymd.2.2

/-- Python `datetime.weekday()` (Monday = 0) of an epoch-day count:
1970-01-01 was a Thursday (= 3). -/
def weekdayOfEpochDay (d : ℤ) : ℤ :=
  (d + 3) % 7

/-! ## Calendar-component extractors with the `-1` sentinel -/

/-- `get_year`: year of the transaction date, `-1` on parse failure. -/
def get_year (t : Transaction) : ℤ :=
  match parseDate t.date with
  | some ymd => ymd.1
  | none => -1

/-- `get_month`: month of the transaction date, `-1` on parse failure. -/
def get_month (t : Transaction) : ℤ :=
  match parseDate t.date with
  | some ymd => ymd.2.1
  | none => -1

/-- `get_day`: day of the month of the transaction date, `-1` on parse
failure. -/
def get_day (t : Transaction) : ℤ :=
  match parseDate t.date with
  | some ymd => ymd.2.2
  | none => -1

/-- `get_day_of_week`: weekday (Monday = 0) of the transaction date, `-1`
on parse failure. -/
def get_day_of_week (t : Transaction) : ℤ :=
  match parseDate t.date with
  | some ymd => weekdayOfEpochDay (daysFromCivil ymd.1 ymd.2.1 ymd.2.2)
  | none => -1

/-! ## Vendor classifiers (`re.search(r"\b(...)\b", name, re.IGNORECASE)`)

Each Python classifier searches the name, case-insensitively, for one of a
fixed list of literal terms with a word boundary at each end of the term.
Every term starts and ends with a word character, so `\b` at the left edge
means "previous character (if any) is not a word character" and `\b` at the
right edge means "next character (if any) is not a word character". -/

/-- Python regex word character (ASCII fragment relevant to `\b`). -/
def isWordChar (c : Char) : Bool :=
  c.isAlphanum || c = '_'

/-- If `pat` is literally the next characters of `t`, return the rest of
`t`; otherwise `none`. -/
def dropPat : List Char → List Char → Option (List Char)
  | [], t => some t
  | _ :: _, [] => none
  | p :: ps, c :: cs => if p = c then dropPat ps cs else none

/-- Right word boundary: the text after the match starts with a non-word
character or is empty. -/
def boundaryEnd : List Char → Bool
  | [] => true
  | c :: _ => !isWordChar c

/-- Does `pat` match at some position of the text with word boundaries on
both sides?  `prevWord` says whether the character just before the current
position is a word character (`false` at the start of the string). -/
def findWord (pat : List Char) : Bool → List Char → Bool
  | prevWord, [] =>
    !prevWord &&
      (match dropPat pat [] with
       | some rest => boundaryEnd rest
       | none => false)
  | prevWord, c :: cs =>
    (!prevWord &&
      (match dropPat pat (c :: cs) with
       | some rest => boundaryEnd rest
       | none => false)) ||
    findWord pat (isWordChar c) cs

/-- `re.search` of an alternation of literal terms, `re.IGNORECASE`,
with `\b` at both edges: lowercase the name and look for any term. -/
def searchAnyWord (pats : List (List Char)) (name : String) : Bool :=
  pats.any fun p => findWord p false (name.data.map Char.toLower)

/-- `get_is_always_recurring`: the name contains one of the known
always-recurring vendors. -/
def get_is_always_recurring (t : Transaction) : Bool :=
  searchAnyWord ["netflix".data, "spotify".data, "google storage".data, "hulu".data] t.name

/-- `get_is_insurance`: the name matches one of the insurance stems (the
source lists `insur` twice; kept verbatim). -/
def get_is_insurance (t : Transaction) : Bool :=
  searchAnyWord ["insur".data, "geico".data, "allstate".data, "state farm".data,
    "progressive".data, "insur".data, "insuranc".data] t.name

/-- `get_is_utility`: the name matches one of the utility terms. -/
def get_is_utility (t : Transaction) : Bool :=
  searchAnyWord ["water".data, "electricity".data, "gas".data, "internet".data,
    "cable".data, "energy".data, "utilit".data, "utility".data] t.name

/-- `is_recurring_mobile_transaction`: the name matches one of the mobile
carriers. -/
def is_recurring_mobile_transaction (t : Transaction) : Bool :=
  searchAnyWord ["t-mobile".data, "at&t".data, "verizon".data,
    "boost mobile".data, "tello mobile".data] t.name

/-! ## Periodicity detectors -/

/-- The loop body of `get_n_transactions_days_apart`, over the epoch days
of the history entries: skip an entry when `days_diff < n_days_apart -
n_days_off`, otherwise count it when `days_diff % n_days_apart` is within
`n_days_off` of 0 or of `n_days_apart`. -/
def daysApartCount (transaction_days n_days_apart n_days_off : ℤ) : List ℤ → ℕ
  | [] => 0
  | d :: rest =>
    if |d - transaction_days| < n_days_apart - n_days_off then
      daysApartCount transaction_days n_days_apart n_days_off rest
    else if |d - transaction_days| % n_days_apart ≤ n_days_off ∨
        n_days_apart - |d - transaction_days| % n_days_apart ≤ n_days_off then
      daysApartCount transaction_days n_days_apart n_days_off rest + 1
    else daysApartCount transaction_days n_days_apart n_days_off rest

/-- `get_n_transactions_days_apart(transaction, all_transactions,
n_days_apart, n_days_off)`: the transaction's own epoch day is computed
first (so a malformed transaction date raises even on an empty history),
then each history entry's epoch day, then the loop count.  `none` models
an uncaught `ValueError`. -/
def get_n_transactions_days_apart (transaction : Transaction)
    (all_transactions : List Transaction) (n_days_apart n_days_off : ℤ) : Option ℕ := do
  let transaction_days ← _get_days transaction.date
  let ds ← all_transactions.mapM fun t => _get_days t.date
  pure (daysApartCount transaction_days n_days_apart n_days_off ds)

/-- `_get_day(date)`: `int(date.split("-")[2])` — the third dash-delimited
field read as an integer, with no calendar validation; `none` models the
`IndexError`/`ValueError` when the field is missing or not numeric. -/
def _get_day (date : String) : Option ℤ :=
  match splitDash date.data with
  | _ :: _ :: ds :: _ => digitsVal ds
  | _ => none

/-- `get_n_transactions_same_day(transaction, all_transactions,
n_days_off)`: count history entries whose raw day-of-month differs from
the transaction's by at most `n_days_off`.  The comprehension evaluates
`_get_day` per entry (so an empty history raises nothing). -/
def get_n_transactions_same_day (transaction : Transaction)
    (all_transactions : List Transaction) (n_days_off : ℤ) : Option ℕ := do
  let bs ← all_transactions.mapM fun t => do
    let d ← _get_day t.date
    let dt ← _get_day transaction.date
    pure (decide (|d - dt| ≤ n_days_off))
  pure (bs.count true)

/-! ## `get_ends_in_99`

`(transaction.amount * 100) % 100 == 99`.  `qfloorMod` is Python's `%`
on exact values (remainder with the sign of the divisor).  The idealized
exact-arithmetic reading is `get_ends_in_99`; because the source computes
in binary64 with no rounding step, its true behaviour on amounts like
19.99 hinges on IEEE-754 rounding, modelled separately below. -/

/-- Python's `%` on exact numbers: `a - b * ⌊a / b⌋`. -/
def qfloorMod (a b : ℚ) : ℚ :=
  a - b * ⌊a / b⌋

/-- `get_ends_in_99` under exact (infinite-precision) arithmetic. -/
def get_ends_in_99 (t : Transaction) : Bool :=
  qfloorMod (t.amount * 100) 100 == 99

/-- Round `x` to the nearest integer multiple of `2 ^ s`, ties to even —
the rounding step of IEEE-754 round-to-nearest on a fixed grid. -/
def rnd2 (s : ℤ) (x : ℚ) : ℚ :=
  let y := x * (2 : ℚ) ^ (-s)
  let f := ⌊y⌋
  let r := y - (f : ℚ)
  let n : ℤ :=
    if r < 1/2 then f
    else if 1/2 < r then f + 1
    else if f % 2 = 0 then f else f + 1
  (n : ℚ) * (2 : ℚ) ^ s

/-- `isFloat64 x y`: `y` is the binary64 (53-bit significand)
round-to-nearest-even value of the real number `x`, for `x` in the normal
range (all values in the computation below are normal). -/
def isFloat64 (x y : ℚ) : Prop :=
  (x = 0 ∧ y = 0) ∨
  (0 < x ∧ ∃ e : ℤ, (2 : ℚ) ^ e ≤ x ∧ x < (2 : ℚ) ^ (e + 1) ∧ y = rnd2 (e - 52) x) ∨
  (x < 0 ∧ ∃ e : ℤ, (2 : ℚ) ^ e ≤ -x ∧ -x < (2 : ℚ) ^ (e + 1) ∧ y = -rnd2 (e - 52) (-x))

/-- The comparison step of `get_ends_in_99` once the binary64 value `p` of
`amount * 100` is known: Python's float `%` returns the exact remainder
(here representable, so no further rounding), compared exactly with 99. -/
def ends_in_99_of_product (p : ℚ) : Bool :=
  qfloorMod p 100 == 99

/-- Python 3 `round` to the nearest integer, ties to even — the rounding
the specification prescribes for `endsIn99`. -/
def pyRound (x : ℚ) : ℤ :=
  let f := ⌊x⌋
  let r := x - (f : ℚ)
  if r < 1/2 then f
  else if 1/2 < r then f + 1
  else if f % 2 = 0 then f else f + 1

/-! ## Aggregate statistics -/

/-- `get_min_transaction_amount`: minimum amount, `0.0` on empty input. -/
def get_min_transaction_amount : List Transaction → ℚ
  | [] => 0
  | t :: ts => ts.foldl (fun a x => min a x.amount) t.amount

/-- `get_max_transaction_amount`: maximum amount, `0.0` on empty input. -/
def get_max_transaction_amount : List Transaction → ℚ
  | [] => 0
  | t :: ts => ts.foldl (fun a x => max a x.amount) t.amount

/-- `get_n_transactions_same_vendor`: entries whose name equals the
transaction's name exactly. -/
def get_n_transactions_same_vendor (transaction : Transaction)
    (all_transactions : List Transaction) : ℕ :=
  (all_transactions.filter fun t => t.name == transaction.name).length

/-- `get_percent_transactions_same_amount`: fraction of entries with the
transaction's exact amount; `0.0` for an empty history. -/
def get_percent_transactions_same_amount (transaction : Transaction)
    (all_transactions : List Transaction) : ℚ :=
  if all_transactions.isEmpty then 0
  else
    ((all_transactions.filter fun t => t.amount == transaction.amount).length : ℚ) /
      (all_transactions.length : ℚ)

/-- `get_n_transactions_same_amount`: entries with the transaction's exact
amount. -/
def get_n_transactions_same_amount (transaction : Transaction)
    (all_transactions : List Transaction) : ℕ :=
  (all_transactions.filter fun t => t.amount == transaction.amount).length

/-! ## Interval statistics (`get_transaction_intervals`)

`statistics.stdev` is the square root of the sample variance; the square
root is the only non-rational step, so the translation is split into a
computable core that carries the sample variance (with the source's
`len(intervals) > 1` guard already applied, the guard's `0.0` fallback
coinciding with `sqrt 0`) and a wrapper that takes the square root. -/

/-- Sample variance of a list of integers (what `statistics.stdev`
squares to), `Σ (x - mean)² / (n - 1)`. -/
def sampleVariance (l : List ℤ) : ℚ :=
  let m : ℚ := (l.sum : ℚ) / (l.length : ℚ)
  (l.map fun x => ((x : ℚ) - m) ^ 2).sum / ((l.length : ℚ) - 1)

/-- The fields of the `get_transaction_intervals` result, with the
standard deviation carried as the guarded sample variance. -/
structure IntervalCore where
  avg : ℚ
  varOrZero : ℚ
  monthly : ℚ
  sameWeekday : ℕ
  sameAmount : ℚ
deriving DecidableEq

/-- `get_transaction_intervals`, computable part.  Mirrors the source:
early zero record for fewer than 2 entries (before any date is touched);
otherwise parse every date (a failure raises — `none`), sort, take
consecutive gaps, and compute the statistics.  Sorting the `datetime`
values is sorting their epoch-day numbers. -/
def get_transaction_intervals_core (transactions : List Transaction) : Option IntervalCore :=
  if transactions.length < 2 then
    some { avg := 0, varOrZero := 0, monthly := 0, sameWeekday := 0, sameAmount := 0 }
  else do
    let rawDates ← transactions.mapM fun t => _get_days t.date
    let dates := rawDates.insertionSort (· ≤ ·)
    let intervals : List ℤ := (dates.zip dates.tail).map fun p => p.2 - p.1
    let avg_days : ℚ :=
      if intervals.isEmpty then 0 else (intervals.sum : ℚ) / (intervals.length : ℚ)
    let varOrZero : ℚ := if 1 < intervals.length then sampleVariance intervals else 0
    let monthly_count := intervals.countP fun gap => decide (23 ≤ gap ∧ gap ≤ 38)
    let monthly_recurrence : ℚ :=
      if intervals.isEmpty then 0 else (monthly_count : ℚ) / (intervals.length : ℚ)
    let weekdays := dates.map weekdayOfEpochDay
    let same_weekday : ℕ := if weekdays.dedup.length = 1 then 1 else 0
    let amounts := transactions.map Transaction.amount
    let base_amount := amounts.headI
    let consistent_amount : ℚ :=
      if base_amount = 0 then 0
      else
        ((amounts.countP fun amt => decide (|amt - base_amount| / base_amount ≤ 1/20)) : ℚ) /
          (amounts.length : ℚ)
    pure { avg := avg_days, varOrZero := varOrZero, monthly := monthly_recurrence,
           sameWeekday := same_weekday, sameAmount := consistent_amount }

/-- The returned record of `get_transaction_intervals`, with the standard
deviation as a real number. -/
structure IntervalStats where
  avg_days_between_transactions : ℚ
  std_dev_days_between_transactions : ℝ
  monthly_recurrence : ℚ
  same_weekday : ℕ
  same_amount : ℚ

/-- `get_transaction_intervals`: the core statistics with
`std_dev = sqrt` of the guarded sample variance. -/
noncomputable def get_transaction_intervals (transactions : List Transaction) :
    Option IntervalStats :=
  (get_transaction_intervals_core transactions).map fun c =>
    { avg_days_between_transactions := c.avg
      std_dev_days_between_transactions := Real.sqrt (c.varOrZero : ℝ)
      monthly_recurrence := c.monthly
      same_weekday := c.sameWeekday
      same_amount := c.sameAmount }

/-! ## Feature assembler (`get_features`)

The Python dict keys `"14_days_apart_exact"`, `"14_days_apart_off_by_1"`,
`"7_days_apart_exact"`, `"7_days_apart_off_by_1"` start with a digit and
are renamed `days_apart_14_exact` etc.  As for the interval statistics,
the record is split into a computable core (standard deviation carried as
the guarded sample variance) and a wrapper taking the square root. -/

/-- The `get_features` record, with the interval statistics as an
`IntervalCore`. -/
structure FeaturesCore where
  n_transactions_same_amount : ℕ
  percent_transactions_same_amount : ℚ
  n_transactions_same_vendor : ℕ
  max_transaction_amount : ℚ
  min_transaction_amount : ℚ
  is_recurring_mobile_transaction : Bool
  day_of_week : ℤ
  month : ℤ
  day : ℤ
  year : ℤ
  ends_in_99 : Bool
  amount : ℚ
  same_day_exact : ℕ
  same_day_off_1 : ℕ
  same_day_off_2 : ℕ
  days_apart_14_exact : ℕ
  days_apart_14_off_by_1 : ℕ
  days_apart_7_exact : ℕ
  days_apart_7_off_by_1 : ℕ
  is_insurance : Bool
  is_utility : Bool
  is_always_recurring : Bool
  intervals : IntervalCore
deriving DecidableEq

/-- `get_features(transaction, all_transactions)`, computable part: each
feature in the order the source dict builds them, then the interval
features; `none` models an uncaught exception from any fallible
component. -/
def get_features_core (transaction : Transaction)
    (all_transactions : List Transaction) : Option FeaturesCore := do
  let same_day_exact ← get_n_transactions_same_day transaction all_transactions 0
  let same_day_off_1 ← get_n_transactions_same_day transaction all_transactions 1
  let same_day_off_2 ← get_n_transactions_same_day transaction all_transactions 2
  let days_apart_14_exact ← get_n_transactions_days_apart transaction all_transactions 14 0
  let days_apart_14_off_by_1 ← get_n_transactions_days_apart transaction all_transactions 14 1
  let days_apart_7_exact ← get_n_transactions_days_apart transaction all_transactions 7 0
  let days_apart_7_off_by_1 ← get_n_transactions_days_apart transaction all_transactions 7 1
  let intervals ← get_transaction_intervals_core all_transactions
  pure
    { n_transactions_same_amount := get_n_transactions_same_amount transaction all_transactions
      percent_transactions_same_amount :=
        get_percent_transactions_same_amount transaction all_transactions
      n_transactions_same_vendor := get_n_transactions_same_vendor transaction all_transactions
      max_transaction_amount := get_max_transaction_amount all_transactions
      min_transaction_amount := get_min_transaction_amount all_transactions
      is_recurring_mobile_transaction := is_recurring_mobile_transaction transaction
      day_of_week := get_day_of_week transaction
      month := get_month transaction
      day := get_day transaction
      year := get_year transaction
      ends_in_99 := get_ends_in_99 transaction
      amount := transaction.amount
      same_day_exact := same_day_exact
      same_day_off_1 := same_day_off_1
      same_day_off_2 := same_day_off_2
      days_apart_14_exact := days_apart_14_exact
      days_apart_14_off_by_1 := days_apart_14_off_by_1
      days_apart_7_exact := days_apart_7_exact
      days_apart_7_off_by_1 := days_apart_7_off_by_1
      is_insurance := get_is_insurance transaction
      is_utility := get_is_utility transaction
      is_always_recurring := get_is_always_recurring transaction
      intervals := intervals }

/-- The flat `get_features` record with the real-valued standard
deviation among the interval features. -/
structure Features where
  n_transactions_same_amount : ℕ
  percent_transactions_same_amount : ℚ
  n_transactions_same_vendor : ℕ
  max_transaction_amount : ℚ
  min_transaction_amount : ℚ
  is_recurring_mobile_transaction : Bool
  day_of_week : ℤ
  month : ℤ
  day : ℤ
  year : ℤ
  ends_in_99 : Bool
  amount : ℚ
  same_day_exact : ℕ
  same_day_off_1 : ℕ
  same_day_off_2 : ℕ
  days_apart_14_exact : ℕ
  days_apart_14_off_by_1 : ℕ
  days_apart_7_exact : ℕ
  days_apart_7_off_by_1 : ℕ
  is_insurance : Bool
  is_utility : Bool
  is_always_recurring : Bool
  avg_days_between_transactions : ℚ
  std_dev_days_between_transactions : ℝ
  monthly_recurrence : ℚ
  same_weekday : ℕ
  same_amount : ℚ

/-- `get_features`: the core record with the interval statistics
flattened in and the standard deviation as a real number. -/
noncomputable def get_features (transaction : Transaction)
    (all_transactions : List Transaction) : Option Features :=
  (get_features_core transaction all_transactions).map fun c =>
    { n_transactions_same_amount := c.n_transactions_same_amount
      percent_transactions_same_amount := c.percent_transactions_same_amount
      n_transactions_same_vendor := c.n_transactions_same_vendor
      max_transaction_amount := c.max_transaction_amount
      min_transaction_amount := c.min_transaction_amount
      is_recurring_mobile_transaction := c.is_recurring_mobile_transaction
      day_of_week := c.day_of_week
      month := c.month
      day := c.day
      year := c.year
      ends_in_99 := c.ends_in_99
      amount := c.amount
      same_day_exact := c.same_day_exact
      same_day_off_1 := c.same_day_off_1
      same_day_off_2 := c.same_day_off_2
      days_apart_14_exact := c.days_apart_14_exact
      days_apart_14_off_by_1 := c.days_apart_14_off_by_1
      days_apart_7_exact := c.days_apart_7_exact
      days_apart_7_off_by_1 := c.days_apart_7_off_by_1
      is_insurance := c.is_insurance
      is_utility := c.is_utility
      is_always_recurring := c.is_always_recurring
      avg_days_between_transactions := c.intervals.avg
      std_dev_days_between_transactions := Real.sqrt (c.intervals.varOrZero : ℝ)
      monthly_recurrence := c.intervals.monthly
      same_weekday := c.intervals.sameWeekday
      same_amount := c.intervals.sameAmount }

/-! ## Theorems -/

/-- The per-entry inclusion test of claim C1: the entry's absolute
epoch-day difference from the transaction is at least
`n_days_apart - n_days_off`, and its remainder mod `n_days_apart` is
within `n_days_off` of 0 or of `n_days_apart`. -/
def daysApartPred (transaction_days n_days_apart n_days_off : ℤ) (t : Transaction) : Bool :=
  match _get_days t.date with
  | none => false
  | some d =>
    decide (n_days_apart - n_days_off ≤ |d - transaction_days| ∧
      (|d - transaction_days| % n_days_apart ≤ n_days_off ∨
       n_days_apart - |d - transaction_days| % n_days_apart ≤ n_days_off))

lemma daysApart_loop (td g k : ℤ) :
    ∀ l : List Transaction, (∀ x ∈ l, (_get_days x.date).isSome) →
      ∃ ds, l.mapM (fun x => _get_days x.date) = some ds ∧
        daysApartCount td g k ds = l.countP (daysApartPred td g k) := by
  intro l
  induction l with
  | nil => intro _; exact ⟨[], rfl, rfl⟩
  | cons x l ih =>
    intro hp
    obtain ⟨d, hd⟩ := Option.isSome_iff_exists.1 (hp x (List.mem_cons_self x l))
    obtain ⟨ds, hds, hcount⟩ := ih fun y hy => hp y (List.mem_cons_of_mem x hy)
    refine ⟨d :: ds, ?_, ?_⟩
    · rw [List.mapM_cons, hd, hds]; rfl
    · rw [List.countP_cons, daysApartCount]
      simp only [daysApartPred, hd, decide_eq_true_eq, ← hcount]
      split_ifs with h1 h2 h3 <;> omega

/-- Claim C1: for every transaction, history, target gap `g > 0` and
tolerance `k ≥ 0` (all dates parseable), `get_n_transactions_days_apart`
returns exactly the number of history entries whose absolute epoch-day
difference `diff` satisfies `diff ≥ g - k` and, with
`remainder = diff % g`, `remainder ≤ k` or `g - remainder ≤ k`; entries
with `diff < g - k` contribute nothing. -/
theorem claim_C1 (t : Transaction) (h : List Transaction) (g k td : ℤ)
    (_hg : 0 < g) (_hk : 0 ≤ k) (ht : _get_days t.date = some td)
    (hp : ∀ x ∈ h, (_get_days x.date).isSome) :
    get_n_transactions_days_apart t h g k = some (h.countP (daysApartPred td g k)) := by
  obtain ⟨ds, hds, hcount⟩ := daysApart_loop td g k h hp
  rw [get_n_transactions_days_apart, ht, hds]
  simp [hcount]

/-- Witness for C1: a concrete transaction at 2024-01-01 with history
entries at 2024-01-15 (diff 14, counted) and 2024-01-05 (diff 4,
skipped), target gap 14, tolerance 1. -/
theorem claim_C1_witness :
    get_n_transactions_days_apart ⟨"a", 0, "2024-01-01"⟩
      [⟨"b", 0, "2024-01-15"⟩, ⟨"c", 0, "2024-01-05"⟩] 14 1 = some 1 :=
  (claim_C1 ⟨"a", 0, "2024-01-01"⟩ [⟨"b", 0, "2024-01-15"⟩, ⟨"c", 0, "2024-01-05"⟩]
    14 1 19723 (by decide) (by decide) (by decide) (by decide)).trans (by decide)

/-- Claim C4: for every pair of transactions with parseable dates and
every target gap `g > 0`, tolerance `k ≥ 0`, the per-pair inclusion
decision of `get_n_transactions_days_apart` is symmetric:
`get_n_transactions_days_apart a [b] g k =
 get_n_transactions_days_apart b [a] g k`. -/
theorem claim_C4 (a b : Transaction) (g k da db : ℤ)
    (_hg : 0 < g) (_hk : 0 ≤ k)
    (ha : _get_days a.date = some da) (hb : _get_days b.date = some db) :
    get_n_transactions_days_apart a [b] g k = get_n_transactions_days_apart b [a] g k := by
  rw [get_n_transactions_days_apart, get_n_transactions_days_apart, ha, hb]
  simp only [Option.bind_eq_bind, Option.some_bind, List.mapM_cons, List.mapM_nil, hb, ha]
  simp [daysApartCount, abs_sub_comm da db]

/-- Witness for C4: the symmetry at two concrete transactions dated
2024-01-01 and 2024-01-15 with gap 14, tolerance 1. -/
theorem claim_C4_witness :
    get_n_transactions_days_apart ⟨"a", 0, "2024-01-01"⟩ [⟨"b", 0, "2024-01-15"⟩] 14 1 =
      get_n_transactions_days_apart ⟨"b", 0, "2024-01-15"⟩ [⟨"a", 0, "2024-01-01"⟩] 14 1 :=
  claim_C4 ⟨"a", 0, "2024-01-01"⟩ ⟨"b", 0, "2024-01-15"⟩ 14 1 19723 19737
    (by decide) (by decide) (by decide) (by decide)

/-- Claim C5: for every history with fewer than 2 entries,
`get_transaction_intervals` returns the fixed zero-valued record —
`avg = 0.0`, `std_dev = 0.0`, `monthly_recurrence = 0`,
`same_weekday = 0`, and `same_amount = 0` (not 1). -/
theorem claim_C5 (ts : List Transaction) (h2 : ts.length < 2) :
    get_transaction_intervals ts = some ⟨0, 0, 0, 0, 0⟩ := by
  rw [get_transaction_intervals, get_transaction_intervals_core, if_pos h2]
  simp

/-- Witness for C5: a single-entry history. -/
theorem claim_C5_witness :
    get_transaction_intervals [⟨"a", 5, "2024-01-01"⟩] = some ⟨0, 0, 0, 0, 0⟩ :=
  claim_C5 [⟨"a", 5, "2024-01-01"⟩] (by decide)

/-- Claim C10: for every history with fewer than 2 entries,
`get_transaction_intervals` returns its zero-valued record before the
date-parsing branch is reached, so it is total and never fails even when
every entry's date string is malformed. -/
theorem claim_C10 (ts : List Transaction) (h2 : ts.length < 2)
    (_hbad : ∀ t ∈ ts, parseDate t.date = none) :
    get_transaction_intervals ts = some ⟨0, 0, 0, 0, 0⟩ := by
  rw [get_transaction_intervals, get_transaction_intervals_core, if_pos h2]
  simp

/-- Witness for C10: a single-entry history whose date does not parse. -/
theorem claim_C10_witness :
    get_transaction_intervals [⟨"a", 5, "2024-13-40"⟩] = some ⟨0, 0, 0, 0, 0⟩ :=
  claim_C10 [⟨"a", 5, "2024-13-40"⟩] (by decide) (by decide)

/-- Claim C6: for every transaction whose date string does not parse as a
valid `YYYY-MM-DD` calendar date, `get_year`, `get_month`, `get_day` and
`get_day_of_week` each return the sentinel `-1` (and, being total
functions, no exception propagates); for parseable dates they return the
parsed year, month, day of month, and weekday. -/
theorem claim_C6 (t : Transaction) :
    (parseDate t.date = none →
      get_year t = -1 ∧ get_month t = -1 ∧ get_day t = -1 ∧ get_day_of_week t = -1) ∧
    (∀ y m d : ℤ, parseDate t.date = some (y, m, d) →
      get_year t = y ∧ get_month t = m ∧ get_day t = d ∧
        get_day_of_week t = weekdayOfEpochDay (daysFromCivil y m d)) := by
  constructor
  · intro hnone
    simp [get_year, get_month, get_day, get_day_of_week, hnone]
  · intro y m d hsome
    simp [get_year, get_month, get_day, get_day_of_week, hsome]

/-- Witness for C6: the malformed date `"2024-13-40"` yields `-1` from
all four extractors, and the valid date `"2024-01-02"` yields its
components and weekday. -/
theorem claim_C6_witness :
    (get_year ⟨"x", 0, "2024-13-40"⟩ = -1 ∧ get_month ⟨"x", 0, "2024-13-40"⟩ = -1 ∧
      get_day ⟨"x", 0, "2024-13-40"⟩ = -1 ∧ get_day_of_week ⟨"x", 0, "2024-13-40"⟩ = -1) ∧
    (get_year ⟨"x", 0, "2024-01-02"⟩ = 2024 ∧ get_month ⟨"x", 0, "2024-01-02"⟩ = 1 ∧
      get_day ⟨"x", 0, "2024-01-02"⟩ = 2 ∧
      get_day_of_week ⟨"x", 0, "2024-01-02"⟩ = weekdayOfEpochDay (daysFromCivil 2024 1 2)) :=
  ⟨(claim_C6 ⟨"x", 0, "2024-13-40"⟩).1 (by decide),
   (claim_C6 ⟨"x", 0, "2024-01-02"⟩).2 2024 1 2 (by decide)⟩

/-- Claim C7: for every transaction `t` and non-empty history `h`,
`get_percent_transactions_same_amount t h` equals
`get_n_transactions_same_amount t h` divided by the length of `h`; for
the empty history it equals `0.0`. -/
theorem claim_C7 (t : Transaction) (h : List Transaction) :
    (h ≠ [] → get_percent_transactions_same_amount t h =
      (get_n_transactions_same_amount t h : ℚ) / (h.length : ℚ)) ∧
    get_percent_transactions_same_amount t [] = 0 := by
  constructor
  · intro hne
    rw [get_percent_transactions_same_amount,
      if_neg (by simpa using hne), get_n_transactions_same_amount]
  · rfl

/-- Witness for C7: a two-entry history with one matching amount gives
the ratio 1/2, and the empty history gives 0. -/
theorem claim_C7_witness :
    get_percent_transactions_same_amount ⟨"a", 5, "x"⟩
      [⟨"b", 5, "y"⟩, ⟨"c", 6, "z"⟩] = 1/2 ∧
    get_percent_transactions_same_amount ⟨"a", 5, "x"⟩ [] = 0 :=
  ⟨((claim_C7 ⟨"a", 5, "x"⟩ [⟨"b", 5, "y"⟩, ⟨"c", 6, "z"⟩]).1 (by decide)).trans (by decide),
   (claim_C7 ⟨"a", 5, "x"⟩ []).2⟩

lemma mapM_some {α β : Type} (f : α → Option β) :
    ∀ l : List α, (∀ x ∈ l, (f x).isSome) → ∃ bs, l.mapM f = some bs := by
  intro l
  induction l with
  | nil => exact fun _ => ⟨[], rfl⟩
  | cons x l ih =>
    intro hp
    obtain ⟨b, hb⟩ := Option.isSome_iff_exists.1 (hp x (List.mem_cons_self x l))
    obtain ⟨bs, hbs⟩ := ih fun y hy => hp y (List.mem_cons_of_mem x hy)
    exact ⟨b :: bs, by rw [List.mapM_cons, hb, hbs]; rfl⟩

/-- Claim C8: for every history of at least 2 entries (all dates
parseable, so the statistics are reached) whose first entry's amount, in
original unsorted order, is strictly negative,
`get_transaction_intervals` returns `same_amount = 1.0` regardless of the
other amounts: `|amt - base| / base ≤ 0.05` divides by the signed
baseline, so a negative baseline makes the quotient non-positive and
every entry passes. -/
theorem claim_C8 (t0 : Transaction) (rest : List Transaction) (hne : rest ≠ [])
    (hp : ∀ x ∈ t0 :: rest, (_get_days x.date).isSome) (hneg : t0.amount < 0) :
    ∃ s : IntervalStats,
      get_transaction_intervals (t0 :: rest) = some s ∧ s.same_amount = 1 := by
  obtain ⟨ds, hds⟩ := mapM_some _ (t0 :: rest) hp
  have hr : 0 < rest.length := List.length_pos.2 hne
  rw [get_transaction_intervals, get_transaction_intervals_core,
    if_neg (by simp only [List.length_cons]; omega), hds]
  refine ⟨_, rfl, ?_⟩
  have hbase : (List.map Transaction.amount (t0 :: rest)).headI = t0.amount := rfl
  show (if (List.map Transaction.amount (t0 :: rest)).headI = 0 then (0:ℚ)
    else ((List.map Transaction.amount (t0 :: rest)).countP
        (fun amt => decide (|amt - (List.map Transaction.amount (t0 :: rest)).headI| /
          (List.map Transaction.amount (t0 :: rest)).headI ≤ 1/20)) : ℚ) /
      ((List.map Transaction.amount (t0 :: rest)).length : ℚ)) = 1
  rw [hbase, if_neg (ne_of_lt hneg), List.countP_eq_length.2 ?_]
  · exact div_self (by
      rw [List.length_map, List.length_cons]
      exact Nat.cast_ne_zero.2 (Nat.succ_ne_zero rest.length))
  · intro a _
    simp only [decide_eq_true_eq]
    exact le_trans (div_nonpos_iff.2 (Or.inl ⟨abs_nonneg _, hneg.le⟩)) (by norm_num)

/-- Witness for C8: a two-entry history with first amount `-5` and a
wildly different second amount still reports `same_amount = 1`. -/
theorem claim_C8_witness :
    ∃ s : IntervalStats,
      get_transaction_intervals [⟨"a", -5, "2024-01-01"⟩, ⟨"b", 700, "2024-02-03"⟩] = some s ∧
        s.same_amount = 1 :=
  claim_C8 ⟨"a", -5, "2024-01-01"⟩ [⟨"b", 700, "2024-02-03"⟩]
    (by decide) (by decide) (by decide)

lemma sameDay_loop (t : Transaction) (dt k : ℤ)
    (ht : _get_day t.date = some dt) (hk : 0 ≤ k) :
    ∀ l : List Transaction, (∀ x ∈ l, (_get_day x.date).isSome) →
      ∃ bs : List Bool,
        (l.mapM fun x => do
            let d ← _get_day x.date
            let dtt ← _get_day t.date
            pure (decide (|d - dtt| ≤ k))) = some bs ∧
          l.count t ≤ bs.count true := by
  intro l
  induction l with
  | nil => exact fun _ => ⟨[], rfl, le_refl 0⟩
  | cons x l ih =>
    intro hp
    obtain ⟨d, hd⟩ := Option.isSome_iff_exists.1 (hp x (List.mem_cons_self x l))
    obtain ⟨bs, hbs, hcount⟩ := ih fun y hy => hp y (List.mem_cons_of_mem x hy)
    refine ⟨decide (|d - dt| ≤ k) :: bs, ?_, ?_⟩
    · rw [List.mapM_cons, hbs, hd, ht]; rfl
    · rw [List.count_cons, List.count_cons]
      by_cases hxt : x = t
      · have hdt : d = dt := by
          rw [hxt, ht] at hd
          exact Option.some_injective _ hd.symm
        have : decide (|d - dt| ≤ k) = true := by
          rw [hdt]
          simp [hk]
        simp only [hxt, this, beq_self_eq_true, if_pos]
        omega
      · have : (x == t) = false := beq_eq_false_iff_ne.2 hxt
        simp only [this, Bool.false_eq_true, if_false, Nat.add_zero]
        exact le_trans hcount (by split <;> omega)

/-- Claim C9: for every transaction `t` whose date string has an integer
third dash-delimited field, every history `h` containing `t` whose
entries all have such a field, and every tolerance `k ≥ 0`,
`get_n_transactions_same_day t h k` returns a count at least the number
of occurrences of `t` in `h` — in particular at least 1 — because each
occurrence has day-of-month difference 0. -/
theorem claim_C9 (t : Transaction) (h : List Transaction) (k dt : ℤ)
    (hk : 0 ≤ k) (ht : _get_day t.date = some dt)
    (hp : ∀ x ∈ h, (_get_day x.date).isSome) (hmem : t ∈ h) :
    ∃ n : ℕ, get_n_transactions_same_day t h k = some n ∧ h.count t ≤ n ∧ 1 ≤ n := by
  obtain ⟨bs, hbs, hcount⟩ := sameDay_loop t dt k ht hk h hp
  refine ⟨bs.count true, ?_, hcount, ?_⟩
  · rw [get_n_transactions_same_day, hbs]; rfl
  · exact le_trans (List.count_pos_iff.2 hmem) hcount

/-- Witness for C9: a history containing the transaction twice plus an
unrelated entry; the same-day count is at least 2. -/
theorem claim_C9_witness :
    ∃ n : ℕ, get_n_transactions_same_day ⟨"a", 5, "2024-01-03"⟩
      [⟨"a", 5, "2024-01-03"⟩, ⟨"b", 7, "2024-02-20"⟩, ⟨"a", 5, "2024-01-03"⟩] 0 = some n ∧
      [⟨"a", 5, "2024-01-03"⟩, ⟨"b", 7, "2024-02-20"⟩,
        (⟨"a", 5, "2024-01-03"⟩ : Transaction)].count ⟨"a", 5, "2024-01-03"⟩ ≤ n ∧ 1 ≤ n :=
  claim_C9 ⟨"a", 5, "2024-01-03"⟩
    [⟨"a", 5, "2024-01-03"⟩, ⟨"b", 7, "2024-02-20"⟩, ⟨"a", 5, "2024-01-03"⟩] 0 3
    (by decide) (by decide) (by decide) (by decide)

/-- The history of claim C3: three transactions dated 2024-01-01,
2024-01-15 and 2024-01-29, each with amount 9.99 and name "Netflix". -/
def netflixHistory : List Transaction :=
  [⟨"Netflix", 999/100, "2024-01-01"⟩, ⟨"Netflix", 999/100, "2024-01-15"⟩,
   ⟨"Netflix", 999/100, "2024-01-29"⟩]

/-- Claim C3: for the history of exactly three transactions dated
2024-01-01, 2024-01-15, 2024-01-29, each with amount 9.99 and name
"Netflix", `get_features` on any of them returns
`is_always_recurring = true`, `same_amount = 1.0`,
`avg_days_between_transactions = 14.0`,
`std_dev_days_between_transactions = 0.0`, `monthly_recurrence = 0.0`,
and `same_weekday = 1`. -/
theorem claim_C3 (t : Transaction) (hmem : t ∈ netflixHistory) :
    ∃ F : Features, get_features t netflixHistory = some F ∧
      F.is_always_recurring = true ∧ F.same_amount = 1 ∧
      F.avg_days_between_transactions = 14 ∧
      F.std_dev_days_between_transactions = 0 ∧
      F.monthly_recurrence = 0 ∧ F.same_weekday = 1 := by
  simp only [netflixHistory, List.mem_cons, List.not_mem_nil, or_false] at hmem
  rcases hmem with rfl | rfl | rfl
  · have hc : get_features_core ⟨"Netflix", 999/100, "2024-01-01"⟩ netflixHistory =
        some ⟨3, 1, 3, 999/100, 999/100, false, 0, 1, 1, 2024, true, 999/100,
          1, 1, 1, 2, 2, 2, 2, false, false, true, ⟨14, 0, 0, 1, 1⟩⟩ := by decide
    have hF : get_features ⟨"Netflix", 999/100, "2024-01-01"⟩ netflixHistory =
        some ⟨3, 1, 3, 999/100, 999/100, false, 0, 1, 1, 2024, true, 999/100,
          1, 1, 1, 2, 2, 2, 2, false, false, true, 14, Real.sqrt ((0:ℚ) : ℝ), 0, 1, 1⟩ := by
      rw [get_features, hc]; rfl
    exact ⟨_, hF, rfl, rfl, rfl, by simp, rfl, rfl⟩
  · have hc : get_features_core ⟨"Netflix", 999/100, "2024-01-15"⟩ netflixHistory =
        some ⟨3, 1, 3, 999/100, 999/100, false, 0, 1, 15, 2024, true, 999/100,
          1, 1, 1, 2, 2, 2, 2, false, false, true, ⟨14, 0, 0, 1, 1⟩⟩ := by decide
    have hF : get_features ⟨"Netflix", 999/100, "2024-01-15"⟩ netflixHistory =
        some ⟨3, 1, 3, 999/100, 999/100, false, 0, 1, 15, 2024, true, 999/100,
          1, 1, 1, 2, 2, 2, 2, false, false, true, 14, Real.sqrt ((0:ℚ) : ℝ), 0, 1, 1⟩ := by
      rw [get_features, hc]; rfl
    exact ⟨_, hF, rfl, rfl, rfl, by simp, rfl, rfl⟩
  · have hc : get_features_core ⟨"Netflix", 999/100, "2024-01-29"⟩ netflixHistory =
        some ⟨3, 1, 3, 999/100, 999/100, false, 0, 1, 29, 2024, true, 999/100,
          1, 1, 1, 2, 2, 2, 2, false, false, true, ⟨14, 0, 0, 1, 1⟩⟩ := by decide
    have hF : get_features ⟨"Netflix", 999/100, "2024-01-29"⟩ netflixHistory =
        some ⟨3, 1, 3, 999/100, 999/100, false, 0, 1, 29, 2024, true, 999/100,
          1, 1, 1, 2, 2, 2, 2, false, false, true, 14, Real.sqrt ((0:ℚ) : ℝ), 0, 1, 1⟩ := by
      rw [get_features, hc]; rfl
    exact ⟨_, hF, rfl, rfl, rfl, by simp, rfl, rfl⟩

/-- Witness for C3: the claim instantiated at the first of the three
transactions. -/
theorem claim_C3_witness :
    ∃ F : Features,
      get_features ⟨"Netflix", 999/100, "2024-01-01"⟩ netflixHistory = some F ∧
        F.is_always_recurring = true ∧ F.same_amount = 1 ∧
        F.avg_days_between_transactions = 14 ∧
        F.std_dev_days_between_transactions = 0 ∧
        F.monthly_recurrence = 0 ∧ F.same_weekday = 1 :=
  claim_C3 ⟨"Netflix", 999/100, "2024-01-01"⟩ (List.Mem.head _)

lemma isFloat64_det (x y : ℚ) (e : ℤ)
    (h1 : (2:ℚ) ^ e ≤ x) (h2 : x < (2:ℚ) ^ (e + 1)) (hf : isFloat64 x y) :
    y = rnd2 (e - 52) x := by
  have hx : 0 < x := lt_of_lt_of_le (zpow_pos (by norm_num) e) h1
  rcases hf with ⟨hx0, _⟩ | ⟨_, e', he1, he2, hy⟩ | ⟨hneg, _⟩
  · exact absurd hx0 (ne_of_gt hx)
  · have hee : e' = e := by
      by_contra hne
      rcases lt_or_gt_of_ne hne with hlt | hgt
      · have hle : (2:ℚ) ^ (e' + 1) ≤ (2:ℚ) ^ e := zpow_le_zpow_right₀ (by norm_num) (by omega)
        linarith
      · have hle : (2:ℚ) ^ (e + 1) ≤ (2:ℚ) ^ e' := zpow_le_zpow_right₀ (by norm_num) (by omega)
        linarith
    rw [hy, hee]
  · linarith

/-- Claim C2 is a code bug: the source computes
`(amount * 100) % 100 == 99` in binary64 with no rounding step, so at
amount 19.99 — whose binary64 value is `5626684784446013 / 2^48` — the
product rounds to `1999 - 2^-42`, the float modulo yields
`99 - 2^-42 ≠ 99`, and `get_ends_in_99` returns `false`; the
specification's `round(amount * 100) mod 100 == 99` yields `true` there.
`a` is any binary64 rounding of 19.99 and `p` any binary64 rounding of
`a * 100` (both are unique, as the proof shows). -/
theorem claim_C2 (a p : ℚ) (ha : isFloat64 (1999/100) a) (hp : isFloat64 (a * 100) p) :
    ends_in_99_of_product p = false ∧ pyRound p % 100 = 99 := by
  have haval : a = 5626684784446013 / 281474976710656 := by
    have h := isFloat64_det (1999/100) a 4 (by decide) (by decide) ha
    rw [h]; decide
  rw [haval] at hp
  have hpval : p = 8791694975696895 / 4398046511104 := by
    have h := isFloat64_det ((5626684784446013 / 281474976710656) * 100) p 10
      (by decide) (by decide) hp
    rw [h]; decide
  rw [hpval]
  exact ⟨by decide, by decide⟩

/-- Witness for C2: the concrete binary64 values of 19.99 and of
`19.99 * 100` satisfy the rounding relation, and at them the code's
comparison is `false` while the specification's rounded remainder is
99. -/
theorem claim_C2_witness :
    ends_in_99_of_product (8791694975696895/4398046511104) = false ∧
      pyRound (8791694975696895/4398046511104) % 100 = 99 :=
  claim_C2 (5626684784446013/281474976710656) (8791694975696895/4398046511104)
    (Or.inr (Or.inl ⟨by decide, 4, by decide, by decide, by decide⟩))
    (Or.inr (Or.inl ⟨by decide, 10, by decide, by decide, by decide⟩))

end RecurScan
